import Mathlib

/-!
Shallow embedding of the osecure authorization middleware (Go package
osecure) and proofs about its session and permission-cache behaviour.

Modelling conventions:
- Instants are natural numbers; the Go zero time is 0. Go's
  time.Time.Before is strict less-than.
- The external cookie store read (gorilla sessions CookieStore.Get) is an
  input of type Except String (Option GoValue): an error, or the value
  found under the data key of the decoded session (none when the cookie or
  the key is missing).
- Go panics are modelled by the PanicOr result type; functions that
  mutate the record in place and emit a cookie write return an outcome
  structure recording the final record, whether a remote fetch happened,
  the cookie write if any, and the panic message if any.
- The remote permission fetch (HTTP GET plus JSON decode) is an input of
  type Except String (List String): transport or decode failure, or the
  decoded permissions array.
-/

namespace Osecure

/-- Opaque OAuth2 bearer token (oauth2.Token) as stored in the record. -/
structure Token where
  AccessToken : String
deriving DecidableEq, Repr

/-- Session credential record stored in the encrypted cookie; field for
field the Go struct AuthSessionData. -/
structure AuthSessionData where
  Token : Token
  ExpireAt : Nat
  Permissions : List String
  PermExpireAt : Nat
deriving DecidableEq, Repr

/-- Default session lifetime in seconds (Go global SessionExpireTime). -/
def SessionExpireTime : Nat := 86400

/-- Default permission cache lifetime in seconds (Go global
PermissionExpireTime). -/
def PermissionExpireTime : Nat := 600

/-- Go time.Time.Before: strict less-than on instants. -/
def timeBefore (t u : Nat) : Bool := decide (t < u)

/-- AuthSessionData.IsExpired: data.ExpireAt.Before(time.Now()). -/
def IsExpired (data : AuthSessionData) (now : Nat) : Bool :=
  timeBefore data.ExpireAt now

/-- AuthSessionData.IsPermExpired: data.PermExpireAt.Before(time.Now()). -/
def IsPermExpired (data : AuthSessionData) (now : Nat) : Bool :=
  timeBefore data.PermExpireAt now

/-- NewAuthSessionData: fresh record with ExpireAt = now + session
lifetime, empty permission list, and zero (never fetched) PermExpireAt.
The lifetime is a parameter since the Go global is a mutable tunable;
its default is SessionExpireTime. -/
def NewAuthSessionData (token : Token) (now sessionLifetime : Nat) :
    AuthSessionData :=
  { Token := token
    ExpireAt := now + sessionLifetime
    Permissions := []
    PermExpireAt := 0 }

/-- Value stored under the data key of the decoded cookie session: either
a pointer to an AuthSessionData, or a value of some other type (the type
assertion in Go then fails). -/
inductive GoValue where
  | authData (d : AuthSessionData)
  | other
deriving DecidableEq, Repr

/-- Result of a Go computation that may panic. -/
inductive PanicOr (α : Type) where
  | panic (msg : String)
  | ok (val : α)
deriving DecidableEq, Repr

/-- Decidable equality for Except results, so that concrete runs of the
embedded functions can be checked by decide. -/
instance exceptDecEq {ε α : Type} [DecidableEq ε] [DecidableEq α] :
    DecidableEq (Except ε α) := fun a b =>
  match a, b with
  | .error e, .error f =>
    if h : e = f then isTrue (by rw [h]) else isFalse (by
      intro hh; cases hh; exact h rfl)
  | .ok x, .ok y =>
    if h : x = y then isTrue (by rw [h]) else isFalse (by
      intro hh; cases hh; exact h rfl)
  | .error _, .ok _ => isFalse (by intro hh; cases hh)
  | .ok _, .error _ => isFalse (by intro hh; cases hh)

/-- getAuthSessionDataFromRequest: panics when the cookie store read
errors; returns none when the data key is absent or the stored value has
the wrong type; otherwise returns the record. -/
def getAuthSessionDataFromRequest (storeGet : Except String (Option GoValue)) :
    PanicOr (Option AuthSessionData) :=
  match storeGet with
  | .error e => .panic e
  | .ok none => .ok none
  | .ok (some (.authData d)) => .ok (some d)
  | .ok (some .other) => .ok none

/-- isAuthorized: true when a record is present and not expired. -/
def isAuthorized (storeGet : Except String (Option GoValue)) (now : Nat) :
    PanicOr Bool :=
  match getAuthSessionDataFromRequest storeGet with
  | .panic e => .panic e
  | .ok none => .ok false
  | .ok (some data) => .ok (!IsExpired data now)

/-- Observable decision of the Secured middleware wrapper. -/
inductive SecuredAction where
  | invokeHandler
  | redirectToAuth
deriving DecidableEq, Repr

/-- Secured: invoke the wrapped handler when authorized, otherwise start
the OAuth flow with a redirect. -/
def Secured (storeGet : Except String (Option GoValue)) (now : Nat) :
    PanicOr SecuredAction :=
  match isAuthorized storeGet now with
  | .panic e => .panic e
  | .ok true => .ok .invokeHandler
  | .ok false => .ok .redirectToAuth

/-- Lexicographic comparison of character lists, structurally recursive
so that it evaluates inside the kernel. Go compares strings byte by byte
over UTF-8, which coincides with code-point lexicographic order. -/
def strLeAux : List Char → List Char → Bool
  | [], _ => true
  | _ :: _, [] => false
  | a :: as, b :: bs =>
    if a < b then true else if b < a then false else strLeAux as bs

/-- Go string comparison s <= t. -/
def strLe (s t : String) : Bool := strLeAux s.data t.data

/-- strLeAux decides the negation of the strict lexicographic order in
the reverse direction, which is exactly the list order underlying the
Mathlib order on String. -/
theorem strLeAux_iff : ∀ (as bs : List Char),
    strLeAux as bs = true ↔ ¬ List.Lex (· < ·) bs as
  | [], bs => by
    simp [strLeAux]
  | a :: as, [] => by
    simp only [strLeAux, Bool.false_eq_true, false_iff, not_not]
    exact List.Lex.nil
  | a :: as, b :: bs => by
    rcases lt_trichotomy a b with hab | heq | hba
    · simp only [strLeAux, hab, if_true, true_iff]
      intro h
      cases h with
      | cons h => exact lt_irrefl a hab
      | rel h => exact lt_asymm hab h
    · subst heq
      simp only [strLeAux, lt_irrefl, if_false]
      rw [strLeAux_iff as bs, List.Lex.cons_iff]
    · have hnab : ¬ a < b := lt_asymm hba
      simp only [strLeAux, hnab, hba, if_false, if_true, Bool.false_eq_true,
        false_iff, not_not]
      exact List.Lex.rel hba
  termination_by as _ => as.length

/-- strLe agrees with the Mathlib linear order on String. -/
theorem strLe_iff (s t : String) : strLe s t = true ↔ s ≤ t := by
  rw [String.le_iff_toList_le, ← not_lt]
  exact strLeAux_iff s.data t.data

/-- Kernel-evaluable decision procedure for string comparison, used so
that concrete runs of the embedded functions can be checked by decide. -/
instance (priority := 2000) decidableLEStr :
    DecidableRel ((· ≤ ·) : String → String → Prop) := fun a b =>
  decidable_of_iff (strLe a b = true) (strLe_iff a b)

/-- Go sort.Strings: ascending lexicographic sort. Antisymmetry of the
string order makes the sorted permutation unique, so insertion sort is
extensionally the Go sort. -/
def sortStrings (l : List String) : List String :=
  List.insertionSort (· ≤ ·) l

/-- Outcome of ensurePermUpdated: the record after the call (the Go code
mutates it in place), whether a remote fetch was attempted, the record
written to the cookie if any, and the panic message if any. -/
structure PermUpdateOutcome where
  data : AuthSessionData
  fetched : Bool
  cookieWrite : Option AuthSessionData
  panicMsg : Option String
deriving DecidableEq, Repr

/-- ensurePermUpdated: no-op while the permission cache is unexpired;
otherwise fetch the remote permission list (panicking on transport or
decode failure), store it sorted with PermExpireAt = now + lifetime, and
write the updated record back as a cookie. -/
def ensurePermUpdated (data : AuthSessionData) (now permLifetime : Nat)
    (fetch : Except String (List String)) : PermUpdateOutcome :=
  if !IsPermExpired data now then
    { data := data, fetched := false, cookieWrite := none, panicMsg := none }
  else
    match fetch with
    | .error e =>
      { data := data, fetched := true, cookieWrite := none, panicMsg := some e }
    | .ok perms =>
      let newData := { data with
        Permissions := sortStrings perms
        PermExpireAt := now + permLifetime }
      { data := newData, fetched := true, cookieWrite := some newData,
        panicMsg := none }

/-- GetPermissions: invalid session error when no record exists or it is
expired; otherwise ensure the permission cache is fresh and return the
permission list. -/
def GetPermissions (storeGet : Except String (Option GoValue))
    (now permLifetime : Nat) (fetch : Except String (List String)) :
    PanicOr (Except String (List String)) :=
  match getAuthSessionDataFromRequest storeGet with
  | .panic e => .panic e
  | .ok none => .ok (.error "invalid session")
  | .ok (some data) =>
    if IsExpired data now then .ok (.error "invalid session")
    else
      let o := ensurePermUpdated data now permLifetime fetch
      match o.panicMsg with
      | some e => .panic e
      | none => .ok (.ok o.data.Permissions)

/-- Loop of Go sort.Search, written with a fuel argument so that the
recursion is structural; the interval shrinks by at least one element per
iteration, so any fuel of at least j - i computes the loop's answer. -/
def goSearchAux (f : Nat → Bool) : Nat → Nat → Nat → Nat
  | 0, i, _ => i
  | fuel + 1, i, j =>
    if i < j then
      if f ((i + j) / 2) then goSearchAux f fuel i ((i + j) / 2)
      else goSearchAux f fuel ((i + j) / 2 + 1) j
    else i

/-- Go sort.Search: binary search for the least index in the half-open
interval from 0 to j at which f holds, assuming f is monotone there. -/
def goSearch (f : Nat → Bool) (i j : Nat) : Nat :=
  goSearchAux f (j - i) i j

/-- Go sort.SearchStrings: binary search over the whole list with
predicate a[i] >= x. -/
def searchStrings (a : List String) (x : String) : Nat :=
  goSearch (fun i => decide (x ≤ a.getD i "")) 0 a.length

/-- HasPermission: false when no record exists or it is expired;
otherwise ensure the permission cache is fresh and test membership by
binary search over the (assumed sorted) permission list. -/
def HasPermission (storeGet : Except String (Option GoValue))
    (now permLifetime : Nat) (fetch : Except String (List String))
    (permission : String) : PanicOr Bool :=
  match getAuthSessionDataFromRequest storeGet with
  | .panic e => .panic e
  | .ok none => .ok false
  | .ok (some data) =>
    if IsExpired data now then .ok false
    else
      let o := ensurePermUpdated data now permLifetime fetch
      match o.panicMsg with
      | some e => .panic e
      | none =>
        let perms := o.data.Permissions
        let id := searchStrings perms permission
        .ok (decide (id < perms.length) && (perms.getD id "" == permission))

/-- Observable HTTP effects of the callback handler. -/
inductive HttpAction where
  | httpError (status : Nat) (body : String)
  | setCookie (data : AuthSessionData)
  | redirect (status : Nat) (location : String)
deriving DecidableEq, Repr

/-- issueAuthCookie: reads the session from the cookie store (panicking
on a store error), stores the record under the data key and saves the
cookie. -/
def issueAuthCookie (storeGet : Except String Unit) (data : AuthSessionData) :
    PanicOr (List HttpAction) :=
  match storeGet with
  | .error e => .panic e
  | .ok _ => .ok [.setCookie data]

/-- CallbackView: reads code and state from the query, exchanges the code
for a token (the exchange is an external input), answers HTTP 400 with
the error text on failure, and on success issues a fresh session cookie
and redirects with status 303 to the state value. -/
def CallbackView (exchange : String → Except String Token)
    (code cont : String) (now sessionLifetime : Nat)
    (issueStore : Except String Unit) : PanicOr (List HttpAction) :=
  match exchange code with
  | .error e => .ok [.httpError 400 e]
  | .ok tok =>
    match issueAuthCookie issueStore (NewAuthSessionData tok now sessionLifetime) with
    | .panic e => .panic e
    | .ok acts => .ok (acts ++ [.redirect 303 cont])


theorem goSearchAux_ge (f : Nat → Bool) :
    ∀ (fuel i j : Nat), i ≤ goSearchAux f fuel i j
  | 0, i, j => le_rfl
  | fuel + 1, i, j => by
    by_cases hij : i < j
    · by_cases hf : f ((i + j) / 2) = true
      · rw [goSearchAux, if_pos hij, if_pos hf]
        exact goSearchAux_ge f fuel i ((i + j) / 2)
      · rw [goSearchAux, if_pos hij, if_neg hf]
        have := goSearchAux_ge f fuel ((i + j) / 2 + 1) j
        omega
    · rw [goSearchAux, if_neg hij]

theorem goSearchAux_le (f : Nat → Bool) :
    ∀ (fuel i j : Nat), i ≤ j → goSearchAux f fuel i j ≤ j
  | 0, i, j => fun h => h
  | fuel + 1, i, j => by
    intro hij
    by_cases hlt : i < j
    · by_cases hf : f ((i + j) / 2) = true
      · rw [goSearchAux, if_pos hlt, if_pos hf]
        have := goSearchAux_le f fuel i ((i + j) / 2) (by omega)
        omega
      · rw [goSearchAux, if_pos hlt, if_neg hf]
        exact goSearchAux_le f fuel ((i + j) / 2 + 1) j (by omega)
    · rw [goSearchAux, if_neg hlt]
      exact hij

theorem goSearchAux_false_below (f : Nat → Bool) (n : Nat)
    (hm : ∀ a b, a ≤ b → b < n → f a = true → f b = true) :
    ∀ (fuel i j : Nat), j ≤ n → (∀ k, k < i → f k = false) →
      ∀ k, k < goSearchAux f fuel i j → f k = false
  | 0, i, j => fun _ hlo => by
    rw [goSearchAux]
    exact hlo
  | fuel + 1, i, j => by
    intro hjn hlo
    by_cases hij : i < j
    · by_cases hf : f ((i + j) / 2) = true
      · rw [goSearchAux, if_pos hij, if_pos hf]
        exact goSearchAux_false_below f n hm fuel i ((i + j) / 2) (by omega) hlo
      · rw [goSearchAux, if_pos hij, if_neg hf]
        apply goSearchAux_false_below f n hm fuel ((i + j) / 2 + 1) j hjn
        intro k hk
        by_cases hki : k < i
        · exact hlo k hki
        · cases hfk : f k with
          | false => rfl
          | true =>
            exact absurd (hm k ((i + j) / 2) (by omega) (by omega) hfk) hf
    · rw [goSearchAux, if_neg hij]
      exact hlo

theorem goSearchAux_true_at (f : Nat → Bool) :
    ∀ (fuel i j : Nat), j - i ≤ fuel → i ≤ j →
      goSearchAux f fuel i j = j ∨ f (goSearchAux f fuel i j) = true
  | 0, i, j => by
    intro h1 h2
    rw [goSearchAux]
    left
    omega
  | fuel + 1, i, j => by
    intro hfuel hij
    by_cases hlt : i < j
    · by_cases hf : f ((i + j) / 2) = true
      · rw [goSearchAux, if_pos hlt, if_pos hf]
        rcases goSearchAux_true_at f fuel i ((i + j) / 2) (by omega) (by omega)
          with h | h
        · right
          rw [h]
          exact hf
        · right
          exact h
      · rw [goSearchAux, if_pos hlt, if_neg hf]
        exact goSearchAux_true_at f fuel ((i + j) / 2 + 1) j (by omega) (by omega)
    · rw [goSearchAux, if_neg hlt]
      left
      omega

theorem goSearch_ge (f : Nat → Bool) (i j : Nat) : i ≤ goSearch f i j :=
  goSearchAux_ge f (j - i) i j

theorem goSearch_le (f : Nat → Bool) (i j : Nat) (h : i ≤ j) :
    goSearch f i j ≤ j :=
  goSearchAux_le f (j - i) i j h

theorem goSearch_false_below (f : Nat → Bool) (n i j : Nat)
    (hm : ∀ a b, a ≤ b → b < n → f a = true → f b = true) (hjn : j ≤ n)
    (hlo : ∀ k, k < i → f k = false) :
    ∀ k, k < goSearch f i j → f k = false :=
  goSearchAux_false_below f n hm (j - i) i j hjn hlo

theorem goSearch_true_at (f : Nat → Bool) (i j : Nat) (hij : i ≤ j) :
    goSearch f i j = j ∨ f (goSearch f i j) = true :=
  goSearchAux_true_at f (j - i) i j le_rfl hij

theorem searchStrings_mem (l : List String) (x : String)
    (hs : List.Sorted (fun a b => a ≤ b) l) :
    (searchStrings l x < l.length ∧ l.getD (searchStrings l x) "" = x) ↔
      x ∈ l := by
  simp only [searchStrings]
  constructor
  · rintro ⟨h1, h2⟩
    rw [List.getD_eq_getElem l "" h1] at h2
    exact h2 ▸ List.getElem_mem h1
  · intro hx
    have hm : ∀ a b, a ≤ b → b < l.length →
        (fun i => decide (x ≤ l.getD i "")) a = true →
        (fun i => decide (x ≤ l.getD i "")) b = true := by
      intro a b hab hb hfa
      have ha : a < l.length := lt_of_le_of_lt hab hb
      simp only [decide_eq_true_eq] at hfa ⊢
      rw [List.getD_eq_getElem l "" ha] at hfa
      rw [List.getD_eq_getElem l "" hb]
      have hgg : l.get ⟨a, ha⟩ ≤ l.get ⟨b, hb⟩ :=
        hs.rel_get_of_le (show (⟨a, ha⟩ : Fin l.length) ≤ ⟨b, hb⟩ from hab)
      simp only [List.get_eq_getElem] at hgg
      exact le_trans hfa hgg
    obtain ⟨m, hmlt, hml⟩ := List.getElem_of_mem hx
    have hfm : (fun i => decide (x ≤ l.getD i "")) m = true := by
      simp only [decide_eq_true_eq]
      rw [List.getD_eq_getElem l "" hmlt, hml]
    have hfb := goSearch_false_below (fun i => decide (x ≤ l.getD i ""))
      l.length 0 l.length hm le_rfl (fun k hk => absurd hk (Nat.not_lt_zero k))
    have hrm : goSearch (fun i => decide (x ≤ l.getD i "")) 0 l.length ≤ m := by
      by_contra hcon
      push_neg at hcon
      have := hfb m hcon
      rw [hfm] at this
      cases this
    have hrlen : goSearch (fun i => decide (x ≤ l.getD i "")) 0 l.length <
        l.length := lt_of_le_of_lt hrm hmlt
    refine ⟨hrlen, ?_⟩
    rcases goSearch_true_at (fun i => decide (x ≤ l.getD i ""))
      0 l.length (Nat.zero_le _) with h | h
    · exact absurd h (by omega)
    · simp only [decide_eq_true_eq] at h
      rw [List.getD_eq_getElem l "" hrlen] at h ⊢
      have h9 : l.get ⟨_, hrlen⟩ ≤ l.get ⟨m, hmlt⟩ :=
        hs.rel_get_of_le
          (show (⟨_, hrlen⟩ : Fin l.length) ≤ ⟨m, hmlt⟩ from hrm)
      simp only [List.get_eq_getElem] at h9
      exact le_antisymm (hml ▸ h9) h

theorem sortStrings_sorted (l : List String) :
    List.Sorted (fun a b => a ≤ b) (sortStrings l) :=
  List.sorted_insertionSort _ l

theorem sortStrings_perm (l : List String) :
    List.Perm (sortStrings l) l :=
  List.perm_insertionSort _ l

end Osecure

namespace Osecure

theorem IsExpired_true_iff (d : AuthSessionData) (now : Nat) :
    IsExpired d now = true ↔ d.ExpireAt < now := by
  simp [IsExpired, timeBefore]

theorem IsExpired_false_iff (d : AuthSessionData) (now : Nat) :
    IsExpired d now = false ↔ now ≤ d.ExpireAt := by
  simp [IsExpired, timeBefore]

theorem IsPermExpired_true_iff (d : AuthSessionData) (now : Nat) :
    IsPermExpired d now = true ↔ d.PermExpireAt < now := by
  simp [IsPermExpired, timeBefore]

theorem IsPermExpired_false_iff (d : AuthSessionData) (now : Nat) :
    IsPermExpired d now = false ↔ now ≤ d.PermExpireAt := by
  simp [IsPermExpired, timeBefore]

theorem ensurePermUpdated_fresh (data : AuthSessionData)
    (now permLifetime : Nat) (fetch : Except String (List String))
    (h : IsPermExpired data now = false) :
    ensurePermUpdated data now permLifetime fetch =
      { data := data, fetched := false, cookieWrite := none,
        panicMsg := none } := by
  simp [ensurePermUpdated, h]

theorem ensurePermUpdated_stale_error (data : AuthSessionData)
    (now permLifetime : Nat) (e : String)
    (h : IsPermExpired data now = true) :
    ensurePermUpdated data now permLifetime (Except.error e) =
      { data := data, fetched := true, cookieWrite := none,
        panicMsg := some e } := by
  simp [ensurePermUpdated, h]

theorem ensurePermUpdated_stale_ok (data : AuthSessionData)
    (now permLifetime : Nat) (perms : List String)
    (h : IsPermExpired data now = true) :
    ensurePermUpdated data now permLifetime (Except.ok perms) =
      { data :=
          { data with
            Permissions := sortStrings perms
            PermExpireAt := now + permLifetime }
        fetched := true
        cookieWrite :=
          some
            { data with
              Permissions := sortStrings perms
              PermExpireAt := now + permLifetime }
        panicMsg := none } := by
  simp [ensurePermUpdated, h]

/-- Claim C1 (original form) is refuted: with a record whose ExpireAt
equals the current instant, the guard still invokes the handler although
now is not strictly before ExpireAt. -/
theorem C1_counterexample :
    Secured (Except.ok (some (GoValue.authData
      { Token := { AccessToken := "t" }, ExpireAt := 100, Permissions := [],
        PermExpireAt := 0 }))) 100 = PanicOr.ok SecuredAction.invokeHandler ∧
    ¬ ((100 : Nat) <
      ({ Token := { AccessToken := "t" }, ExpireAt := 100,
         Permissions := [], PermExpireAt := 0 } : AuthSessionData).ExpireAt) := by
  exact ⟨by decide, by decide⟩

/-- Claim C1 (amended): the guard invokes the wrapped handler exactly
when the store yields a record and now is at or before its ExpireAt; a
record whose ExpireAt equals now is still valid. Otherwise it
redirects. -/
theorem C1_secured_iff (v : Option GoValue) (now : Nat) :
    (Secured (Except.ok v) now = PanicOr.ok SecuredAction.invokeHandler ↔
      ∃ d, v = some (GoValue.authData d) ∧ now ≤ d.ExpireAt) ∧
    (Secured (Except.ok v) now = PanicOr.ok SecuredAction.redirectToAuth ↔
      ¬ ∃ d, v = some (GoValue.authData d) ∧ now ≤ d.ExpireAt) := by
  cases v with
  | none =>
    simp [Secured, isAuthorized, getAuthSessionDataFromRequest]
  | some gv =>
    cases gv with
    | authData d =>
      have hexiff : (∃ d2, (some (GoValue.authData d) : Option GoValue) =
          some (GoValue.authData d2) ∧ now ≤ d2.ExpireAt) ↔
            now ≤ d.ExpireAt := by
        constructor
        · rintro ⟨d2, hd2, h2⟩
          cases hd2
          exact h2
        · intro h
          exact ⟨d, rfl, h⟩
      rw [hexiff]
      by_cases hlt : d.ExpireAt < now
      · have hexp : IsExpired d now = true := by
          simp [IsExpired, timeBefore, hlt]
        simp [Secured, isAuthorized, getAuthSessionDataFromRequest, hexp]
        all_goals omega
      · have hexp : IsExpired d now = false := by
          simp [IsExpired, timeBefore, hlt]
        simp [Secured, isAuthorized, getAuthSessionDataFromRequest, hexp]
        all_goals omega
    | other =>
      simp [Secured, isAuthorized, getAuthSessionDataFromRequest]

/-- Claim C2 (original form) is refuted: when the cookie store read
signals an error, as it does for a cookie failing verification, the
session read panics instead of returning absent. -/
theorem C2_counterexample :
    getAuthSessionDataFromRequest (Except.error "securecookie: invalid value") =
      PanicOr.panic "securecookie: invalid value" ∧
    getAuthSessionDataFromRequest (Except.error "securecookie: invalid value") ≠
      PanicOr.ok none := by
  exact ⟨rfl, by decide⟩

/-- Claim C2 (amended): the session read returns absent for a missing
cookie or data key and for a payload of the wrong type, but panics when
the cookie store read itself fails. -/
theorem C2_get_degrades (e : String) :
    getAuthSessionDataFromRequest (Except.ok none) = PanicOr.ok none ∧
    getAuthSessionDataFromRequest (Except.ok (some GoValue.other)) =
      PanicOr.ok none ∧
    getAuthSessionDataFromRequest (Except.error e) = PanicOr.panic e :=
  ⟨rfl, rfl, rfl⟩

/-- Claim C7: when the code-for-token exchange fails, CallbackView
responds with HTTP 400 carrying the failure description and writes no
cookie. -/
theorem C7_callback_error (exchange : String → Except String Token)
    (code cont : String) (now sessionLifetime : Nat)
    (issueStore : Except String Unit) (e : String)
    (h : exchange code = Except.error e) :
    CallbackView exchange code cont now sessionLifetime issueStore =
      PanicOr.ok [HttpAction.httpError 400 e] ∧
    ∀ acts, CallbackView exchange code cont now sessionLifetime issueStore =
      PanicOr.ok acts → ∀ d, HttpAction.setCookie d ∉ acts := by
  unfold CallbackView
  rw [h]
  refine ⟨rfl, ?_⟩
  rintro acts hacts d
  cases hacts
  simp

/-- Witness for C7 at a concrete failing exchange. -/
theorem C7_callback_error_witness :
    (fun _ : String => (Except.error "invalid grant" : Except String Token))
        "badcode" = Except.error "invalid grant" ∧
    CallbackView (fun _ => Except.error "invalid grant") "badcode" "/home"
        50 86400 (Except.ok ()) =
      PanicOr.ok [HttpAction.httpError 400 "invalid grant"] :=
  ⟨rfl, (C7_callback_error (fun _ => Except.error "invalid grant") "badcode"
    "/home" 50 86400 (Except.ok ()) "invalid grant" rfl).1⟩

/-- Claim C8: when the exchange succeeds, CallbackView writes a fresh
record with ExpireAt = now + session lifetime, empty permissions and zero
PermExpireAt, and then redirects with status 303 to the state value; the
zero PermExpireAt is stale at every positive instant. -/
theorem C8_callback_success (exchange : String → Except String Token)
    (code cont : String) (now sessionLifetime : Nat) (tok : Token)
    (h : exchange code = Except.ok tok) :
    CallbackView exchange code cont now sessionLifetime (Except.ok ()) =
      PanicOr.ok [HttpAction.setCookie (NewAuthSessionData tok now sessionLifetime),
        HttpAction.redirect 303 cont] ∧
    NewAuthSessionData tok now sessionLifetime =
      { Token := tok, ExpireAt := now + sessionLifetime, Permissions := [],
        PermExpireAt := 0 } ∧
    (∀ t, 0 < t → IsPermExpired (NewAuthSessionData tok now sessionLifetime) t
      = true) := by
  unfold CallbackView
  rw [h]
  refine ⟨rfl, rfl, ?_⟩
  intro t ht
  simp [NewAuthSessionData, IsPermExpired, timeBefore, ht]

/-- Witness for C8 at a concrete successful exchange. -/
theorem C8_callback_success_witness :
    (fun _ : String => (Except.ok { AccessToken := "tok" } :
        Except String Token)) "goodcode" =
      Except.ok ({ AccessToken := "tok" } : Token) ∧
    CallbackView (fun _ => Except.ok { AccessToken := "tok" }) "goodcode"
        "/home" 50 86400 (Except.ok ()) =
      PanicOr.ok [HttpAction.setCookie
        { Token := { AccessToken := "tok" }, ExpireAt := 86450,
          Permissions := [], PermExpireAt := 0 },
        HttpAction.redirect 303 "/home"] := by
  refine ⟨rfl, ?_⟩
  have h := (C8_callback_success (fun _ => Except.ok { AccessToken := "tok" })
    "goodcode" "/home" 50 86400 { AccessToken := "tok" } rfl).1
  exact h

/-- Claim C9: a stale cache whose remote fetch fails makes
ensurePermUpdated panic with the failure, leaving the record unchanged
and writing no cookie, and the panic propagates through GetPermissions
and HasPermission. -/
theorem C9_fetch_failure (data : AuthSessionData) (now permLifetime : Nat)
    (e : String) (h : data.PermExpireAt < now) :
    (ensurePermUpdated data now permLifetime (Except.error e)).panicMsg
      = some e ∧
    (ensurePermUpdated data now permLifetime (Except.error e)).data = data ∧
    (ensurePermUpdated data now permLifetime (Except.error e)).cookieWrite
      = none ∧
    (IsExpired data now = false →
      GetPermissions (Except.ok (some (GoValue.authData data))) now
        permLifetime (Except.error e) = PanicOr.panic e) ∧
    (IsExpired data now = false → ∀ p,
      HasPermission (Except.ok (some (GoValue.authData data))) now
        permLifetime (Except.error e) p = PanicOr.panic e) := by
  have hstale : IsPermExpired data now = true := by
    simp [IsPermExpired, timeBefore, h]
  refine ⟨?_, ?_, ?_, ?_, ?_⟩
  · simp [ensurePermUpdated, hstale]
  · simp [ensurePermUpdated, hstale]
  · simp [ensurePermUpdated, hstale]
  · intro hne
    simp [GetPermissions, getAuthSessionDataFromRequest, hne,
      ensurePermUpdated, hstale]
  · intro hne p
    simp [HasPermission, getAuthSessionDataFromRequest, hne,
      ensurePermUpdated, hstale]

/-- Witness for C9 at a concrete stale record and failing fetch. -/
theorem C9_fetch_failure_witness :
    ({ Token := { AccessToken := "t" }, ExpireAt := 1000,
       Permissions := ["p"], PermExpireAt := 50 }
      : AuthSessionData).PermExpireAt < 100 ∧
    (ensurePermUpdated
      { Token := { AccessToken := "t" }, ExpireAt := 1000,
        Permissions := ["p"], PermExpireAt := 50 }
      100 600 (Except.error "connection refused")).panicMsg
      = some "connection refused" := by
  refine ⟨by decide, ?_⟩
  exact (C9_fetch_failure _ 100 600 "connection refused" (by decide)).1

/-- Claim C10: an unexpired record with a fresh permission cache whose
stored list is unsorted and contains the queried identifier exists on
which HasPermission answers false: binary search needs the stored list
sorted. -/
theorem C10_unsorted_cache_misses :
    IsExpired { Token := { AccessToken := "t" }, ExpireAt := 1000,
                Permissions := ["b", "a"], PermExpireAt := 1000 } 100 = false ∧
    IsPermExpired { Token := { AccessToken := "t" }, ExpireAt := 1000,
                    Permissions := ["b", "a"], PermExpireAt := 1000 } 100
      = false ∧
    ¬ List.Sorted (fun a b => a ≤ b) ["b", "a"] ∧
    "a" ∈ ["b", "a"] ∧
    HasPermission (Except.ok (some (GoValue.authData
      { Token := { AccessToken := "t" }, ExpireAt := 1000,
        Permissions := ["b", "a"], PermExpireAt := 1000 }))) 100 600
      (Except.ok []) "a" = PanicOr.ok false :=
  ⟨by decide, by decide, by decide, by decide, by decide⟩

/-- Claim C3: when the cache is stale and the fetch succeeds, the record
ends with the fetched list sorted ascending, PermExpireAt = now plus the
configured lifetime, and exactly that record is written back as a
cookie. -/
theorem C3_refresh_updates (data : AuthSessionData) (now permLifetime : Nat)
    (perms : List String) (h : data.PermExpireAt < now) :
    (ensurePermUpdated data now permLifetime (Except.ok perms)).data.Permissions
      = sortStrings perms ∧
    List.Sorted (fun a b => a ≤ b)
      (ensurePermUpdated data now permLifetime (Except.ok perms)).data.Permissions ∧
    List.Perm
      (ensurePermUpdated data now permLifetime (Except.ok perms)).data.Permissions
      perms ∧
    (ensurePermUpdated data now permLifetime (Except.ok perms)).data.PermExpireAt
      = now + permLifetime ∧
    (ensurePermUpdated data now permLifetime (Except.ok perms)).cookieWrite
      = some (ensurePermUpdated data now permLifetime (Except.ok perms)).data ∧
    (ensurePermUpdated data now permLifetime (Except.ok perms)).panicMsg
      = none := by
  have hstale : IsPermExpired data now = true := (IsPermExpired_true_iff _ _).mpr h
  rw [ensurePermUpdated_stale_ok data now permLifetime perms hstale]
  exact ⟨rfl, sortStrings_sorted perms, sortStrings_perm perms, rfl, rfl, rfl⟩

/-- Witness for C3: a stale record refreshed with the remote response
containing b then a caches the sorted list a then b. -/
theorem C3_refresh_updates_witness :
    ({ Token := { AccessToken := "t" }, ExpireAt := 1000,
       Permissions := [], PermExpireAt := 50 }
      : AuthSessionData).PermExpireAt < 100 ∧
    (ensurePermUpdated
      { Token := { AccessToken := "t" }, ExpireAt := 1000,
        Permissions := [], PermExpireAt := 50 }
      100 600 (Except.ok ["b", "a"])).data.Permissions = sortStrings ["b", "a"] ∧
    sortStrings ["b", "a"] = ["a", "b"] ∧
    (ensurePermUpdated
      { Token := { AccessToken := "t" }, ExpireAt := 1000,
        Permissions := [], PermExpireAt := 50 }
      100 600 (Except.ok ["b", "a"])).data.PermExpireAt = 700 := by
  refine ⟨by decide, ?_, by decide, ?_⟩
  · exact (C3_refresh_updates _ 100 600 ["b", "a"] (by decide)).1
  · exact (C3_refresh_updates _ 100 600 ["b", "a"] (by decide)).2.2.2.1

/-- Claim C4 (original form) is refuted: at now equal to PermExpireAt the
cache is not yet considered expired, so the call is a no-op although now
is not strictly before PermExpireAt. -/
theorem C4_counterexample :
    (ensurePermUpdated
      { Token := { AccessToken := "t" }, ExpireAt := 1000,
        Permissions := ["p"], PermExpireAt := 50 }
      50 600 (Except.ok ["q"])).fetched = false ∧
    (ensurePermUpdated
      { Token := { AccessToken := "t" }, ExpireAt := 1000,
        Permissions := ["p"], PermExpireAt := 50 }
      50 600 (Except.ok ["q"])).data
      = { Token := { AccessToken := "t" }, ExpireAt := 1000,
          Permissions := ["p"], PermExpireAt := 50 } ∧
    ¬ ((50 : Nat) <
      ({ Token := { AccessToken := "t" }, ExpireAt := 1000,
         Permissions := ["p"], PermExpireAt := 50 }
        : AuthSessionData).PermExpireAt) :=
  ⟨by decide, by decide, by decide⟩

/-- Claim C4 (amended): ensurePermUpdated is a no-op exactly when now is
at or before PermExpireAt; when the cache is stale it attempts the remote
fetch; and after a successful refresh a second call whose clock has not
advanced past the refreshed PermExpireAt performs no further fetch, so
two successive calls fetch exactly once when the cache was initially
stale. -/
theorem C4_noop_iff (data : AuthSessionData) (now permLifetime : Nat)
    (fetch : Except String (List String)) :
    ((ensurePermUpdated data now permLifetime fetch).fetched = false ∧
     (ensurePermUpdated data now permLifetime fetch).data = data ∧
     (ensurePermUpdated data now permLifetime fetch).cookieWrite = none ∧
     (ensurePermUpdated data now permLifetime fetch).panicMsg = none ↔
      now ≤ data.PermExpireAt) ∧
    (data.PermExpireAt < now →
      (ensurePermUpdated data now permLifetime fetch).fetched = true) ∧
    (∀ perms now2 fetch2, fetch = Except.ok perms → data.PermExpireAt < now →
      now2 ≤ (ensurePermUpdated data now permLifetime fetch).data.PermExpireAt →
      (ensurePermUpdated (ensurePermUpdated data now permLifetime fetch).data
        now2 permLifetime fetch2).fetched = false) := by
  by_cases h : data.PermExpireAt < now
  · have hstale : IsPermExpired data now = true :=
      (IsPermExpired_true_iff _ _).mpr h
    refine ⟨?_, ?_, ?_⟩
    · cases fetch with
      | error e =>
        rw [ensurePermUpdated_stale_error data now permLifetime e hstale]
        simp
        omega
      | ok perms =>
        rw [ensurePermUpdated_stale_ok data now permLifetime perms hstale]
        simp
        omega
    · intro _
      cases fetch with
      | error e =>
        rw [ensurePermUpdated_stale_error data now permLifetime e hstale]
      | ok perms =>
        rw [ensurePermUpdated_stale_ok data now permLifetime perms hstale]
    · rintro perms now2 fetch2 rfl h2 hle
      rw [ensurePermUpdated_stale_ok data now permLifetime perms hstale] at hle ⊢
      have hfresh : IsPermExpired
          { data with
            Permissions := sortStrings perms
            PermExpireAt := now + permLifetime } now2 = false := by
        rw [IsPermExpired_false_iff]
        exact hle
      rw [ensurePermUpdated_fresh _ now2 permLifetime fetch2 hfresh]
  · have hfresh : IsPermExpired data now = false :=
      (IsPermExpired_false_iff _ _).mpr (by omega)
    refine ⟨?_, ?_, ?_⟩
    · rw [ensurePermUpdated_fresh data now permLifetime fetch hfresh]
      simp
      omega
    · intro hcon
      exact absurd hcon h
    · rintro perms now2 fetch2 rfl h2 hle
      exact absurd h2 h

/-- Witness for C4 at a concrete stale record: the first call fetches,
the second call at the same instant does not. -/
theorem C4_noop_iff_witness :
    ({ Token := { AccessToken := "t" }, ExpireAt := 1000,
       Permissions := [], PermExpireAt := 50 }
      : AuthSessionData).PermExpireAt < 100 ∧
    (ensurePermUpdated
      { Token := { AccessToken := "t" }, ExpireAt := 1000,
        Permissions := [], PermExpireAt := 50 }
      100 600 (Except.ok ["b", "a"])).fetched = true ∧
    (ensurePermUpdated
      (ensurePermUpdated
        { Token := { AccessToken := "t" }, ExpireAt := 1000,
          Permissions := [], PermExpireAt := 50 }
        100 600 (Except.ok ["b", "a"])).data
      100 600 (Except.ok ["z"])).fetched = false := by
  refine ⟨by decide, ?_, ?_⟩
  · exact (C4_noop_iff _ 100 600 (Except.ok ["b", "a"])).2.1 (by decide)
  · exact (C4_noop_iff _ 100 600 (Except.ok ["b", "a"])).2.2
      ["b", "a"] 100 (Except.ok ["z"]) rfl (by decide) (by decide)

theorem HasPermission_live (d : AuthSessionData) (now permLifetime : Nat)
    (fetch : Except String (List String)) (p : String)
    (hexp : IsExpired d now = false)
    (hpm : (ensurePermUpdated d now permLifetime fetch).panicMsg = none) :
    HasPermission (Except.ok (some (GoValue.authData d))) now permLifetime
        fetch p =
      PanicOr.ok (decide (searchStrings
          (ensurePermUpdated d now permLifetime fetch).data.Permissions p <
          (ensurePermUpdated d now permLifetime fetch).data.Permissions.length)
        && ((ensurePermUpdated d now permLifetime fetch).data.Permissions.getD
          (searchStrings
            (ensurePermUpdated d now permLifetime fetch).data.Permissions p)
          "" == p)) := by
  unfold HasPermission
  simp only [getAuthSessionDataFromRequest, hexp, Bool.false_eq_true,
    if_false, hpm]

theorem GetPermissions_live (d : AuthSessionData) (now permLifetime : Nat)
    (fetch : Except String (List String))
    (hexp : IsExpired d now = false)
    (hpm : (ensurePermUpdated d now permLifetime fetch).panicMsg = none) :
    GetPermissions (Except.ok (some (GoValue.authData d))) now permLifetime
        fetch =
      PanicOr.ok (Except.ok
        (ensurePermUpdated d now permLifetime fetch).data.Permissions) := by
  unfold GetPermissions
  simp only [getAuthSessionDataFromRequest, hexp, Bool.false_eq_true,
    if_false, hpm]

/-- Claim C5 (original form) is refuted: an unexpired record with a fresh
but unsorted cached list containing the queried identifier makes
HasPermission answer false, so membership does not hold for all lists. -/
theorem C5_counterexample :
    HasPermission (Except.ok (some (GoValue.authData
      { Token := { AccessToken := "t" }, ExpireAt := 1000,
        Permissions := ["b", "a"], PermExpireAt := 1000 }))) 100 600
      (Except.ok []) "a" = PanicOr.ok false ∧
    "a" ∈ ({ Token := { AccessToken := "t" }, ExpireAt := 1000,
             Permissions := ["b", "a"], PermExpireAt := 1000 }
           : AuthSessionData).Permissions ∧
    IsExpired { Token := { AccessToken := "t" }, ExpireAt := 1000,
                Permissions := ["b", "a"], PermExpireAt := 1000 } 100
      = false :=
  ⟨by decide, by decide, by decide⟩

/-- Claim C5 (amended): HasPermission answers false outright for missing
or expired sessions; otherwise, when the refresh does not panic and the
resulting permission list is sorted (always true when a fetch happened,
and for any list of at most one element), it answers true exactly when
the queried identifier is in that list; for an unsorted multi-element
cached list the binary search may miss. -/
theorem C5_hasPermission (v : Option GoValue) (d : AuthSessionData)
    (now permLifetime : Nat) (fetch : Except String (List String))
    (p : String) :
    (getAuthSessionDataFromRequest (Except.ok v) = PanicOr.ok none →
      HasPermission (Except.ok v) now permLifetime fetch p
        = PanicOr.ok false) ∧
    (IsExpired d now = true →
      HasPermission (Except.ok (some (GoValue.authData d))) now permLifetime
        fetch p = PanicOr.ok false) ∧
    (IsExpired d now = false →
      (ensurePermUpdated d now permLifetime fetch).panicMsg = none →
      List.Sorted (fun a b => a ≤ b)
        (ensurePermUpdated d now permLifetime fetch).data.Permissions →
      (HasPermission (Except.ok (some (GoValue.authData d))) now permLifetime
          fetch p = PanicOr.ok true ↔
        p ∈ (ensurePermUpdated d now permLifetime fetch).data.Permissions)) := by
  refine ⟨?_, ?_, ?_⟩
  · intro hnone
    unfold HasPermission
    rw [hnone]
  · intro hexp
    unfold HasPermission
    simp only [getAuthSessionDataFromRequest, hexp, if_true]
  · intro hexp hpm hsort
    rw [HasPermission_live d now permLifetime fetch p hexp hpm]
    simp only [PanicOr.ok.injEq, Bool.and_eq_true, decide_eq_true_eq,
      beq_iff_eq]
    exact searchStrings_mem _ p hsort

/-- Witness for C5 on a live session with a sorted fresh cache. -/
theorem C5_hasPermission_witness :
    IsExpired { Token := { AccessToken := "t" }, ExpireAt := 1000,
                Permissions := ["a", "b"], PermExpireAt := 1000 } 100
      = false ∧
    ((ensurePermUpdated
      { Token := { AccessToken := "t" }, ExpireAt := 1000,
        Permissions := ["a", "b"], PermExpireAt := 1000 }
      100 600 (Except.ok [])).panicMsg = none) ∧
    (HasPermission (Except.ok (some (GoValue.authData
      { Token := { AccessToken := "t" }, ExpireAt := 1000,
        Permissions := ["a", "b"], PermExpireAt := 1000 }))) 100 600
      (Except.ok []) "b" = PanicOr.ok true ↔
      "b" ∈ (ensurePermUpdated
        { Token := { AccessToken := "t" }, ExpireAt := 1000,
          Permissions := ["a", "b"], PermExpireAt := 1000 }
        100 600 (Except.ok [])).data.Permissions) := by
  refine ⟨by decide, by decide, ?_⟩
  exact (C5_hasPermission (some (GoValue.authData
    { Token := { AccessToken := "t" }, ExpireAt := 1000,
      Permissions := ["a", "b"], PermExpireAt := 1000 }))
    { Token := { AccessToken := "t" }, ExpireAt := 1000,
      Permissions := ["a", "b"], PermExpireAt := 1000 }
    100 600 (Except.ok []) "b").2.2 (by decide) (by decide) (by decide)

/-- Claim C6 (original form) is refuted: with a fresh unsorted cached
list the call returns a nil error together with that unsorted list, so
the returned list is not always sorted. -/
theorem C6_counterexample :
    GetPermissions (Except.ok (some (GoValue.authData
      { Token := { AccessToken := "t" }, ExpireAt := 1000,
        Permissions := ["b", "a"], PermExpireAt := 1000 }))) 100 600
      (Except.ok []) = PanicOr.ok (Except.ok ["b", "a"]) ∧
    ¬ List.Sorted (fun a b => a ≤ b) ["b", "a"] :=
  ⟨by decide, by decide⟩

/-- Claim C6 (amended): GetPermissions fails with the invalid session
error exactly when no record exists or the record is expired; otherwise,
when the refresh does not panic, it returns a nil error with the ensured
record's permission list, and that list is sorted whenever the cache was
stale and the fetch succeeded (an already-fresh stored list is returned
as stored, possibly unsorted). -/
theorem C6_getPermissions (v : Option GoValue) (d : AuthSessionData)
    (now permLifetime : Nat) (fetch : Except String (List String)) :
    (GetPermissions (Except.ok v) now permLifetime fetch =
        PanicOr.ok (Except.error "invalid session") ↔
      (getAuthSessionDataFromRequest (Except.ok v) = PanicOr.ok none ∨
        ∃ d2, getAuthSessionDataFromRequest (Except.ok v) =
          PanicOr.ok (some d2) ∧ IsExpired d2 now = true)) ∧
    (IsExpired d now = false →
      (ensurePermUpdated d now permLifetime fetch).panicMsg = none →
      GetPermissions (Except.ok (some (GoValue.authData d))) now permLifetime
        fetch = PanicOr.ok (Except.ok
          (ensurePermUpdated d now permLifetime fetch).data.Permissions)) ∧
    (d.PermExpireAt < now → ∀ perms, fetch = Except.ok perms →
      List.Sorted (fun a b => a ≤ b)
        (ensurePermUpdated d now permLifetime fetch).data.Permissions) := by
  refine ⟨?_, ?_, ?_⟩
  · cases v with
    | none =>
      unfold GetPermissions
      simp [getAuthSessionDataFromRequest]
    | some gv =>
      cases gv with
      | authData d2 =>
        by_cases hexp : IsExpired d2 now = true
        · unfold GetPermissions
          simp only [getAuthSessionDataFromRequest, hexp, if_true]
          constructor
          · intro _
            exact Or.inr ⟨d2, rfl, hexp⟩
          · intro _
            trivial
        · have hexp2 : IsExpired d2 now = false := by
            cases hval : IsExpired d2 now
            · rfl
            · exact absurd hval hexp
          constructor
          · intro hcon
            cases hpm : (ensurePermUpdated d2 now permLifetime fetch).panicMsg
            with
            | none =>
              rw [GetPermissions_live d2 now permLifetime fetch hexp2 hpm]
                at hcon
              simp at hcon
            | some e =>
              unfold GetPermissions at hcon
              simp only [getAuthSessionDataFromRequest, hexp2,
                Bool.false_eq_true, if_false, hpm] at hcon
              simp at hcon
          · rintro (hleft | ⟨d3, hd3, h3⟩)
            · simp [getAuthSessionDataFromRequest] at hleft
            · simp only [getAuthSessionDataFromRequest,
                PanicOr.ok.injEq, Option.some.injEq] at hd3
              rw [← hd3] at h3
              exact absurd h3 hexp
      | other =>
        unfold GetPermissions
        simp [getAuthSessionDataFromRequest]
  · intro hexp hpm
    exact GetPermissions_live d now permLifetime fetch hexp hpm
  · rintro hstale perms rfl
    have h1 : IsPermExpired d now = true := (IsPermExpired_true_iff _ _).mpr
      hstale
    rw [ensurePermUpdated_stale_ok d now permLifetime perms h1]
    exact sortStrings_sorted perms

/-- Witness for C6 on a live session with a stale cache and a successful
fetch. -/
theorem C6_getPermissions_witness :
    IsExpired { Token := { AccessToken := "t" }, ExpireAt := 1000,
                Permissions := [], PermExpireAt := 50 } 100 = false ∧
    ((ensurePermUpdated
      { Token := { AccessToken := "t" }, ExpireAt := 1000,
        Permissions := [], PermExpireAt := 50 }
      100 600 (Except.ok ["b", "a"])).panicMsg = none) ∧
    GetPermissions (Except.ok (some (GoValue.authData
      { Token := { AccessToken := "t" }, ExpireAt := 1000,
        Permissions := [], PermExpireAt := 50 }))) 100 600
      (Except.ok ["b", "a"]) = PanicOr.ok (Except.ok
        (ensurePermUpdated
          { Token := { AccessToken := "t" }, ExpireAt := 1000,
            Permissions := [], PermExpireAt := 50 }
          100 600 (Except.ok ["b", "a"])).data.Permissions) ∧
    List.Sorted (fun a b => a ≤ b)
      (ensurePermUpdated
        { Token := { AccessToken := "t" }, ExpireAt := 1000,
          Permissions := [], PermExpireAt := 50 }
        100 600 (Except.ok ["b", "a"])).data.Permissions := by
  refine ⟨by decide, by decide, ?_, ?_⟩
  · exact (C6_getPermissions (some (GoValue.authData
      { Token := { AccessToken := "t" }, ExpireAt := 1000,
        Permissions := [], PermExpireAt := 50 }))
      { Token := { AccessToken := "t" }, ExpireAt := 1000,
        Permissions := [], PermExpireAt := 50 }
      100 600 (Except.ok ["b", "a"])).2.1 (by decide) (by decide)
  · exact (C6_getPermissions (some (GoValue.authData
      { Token := { AccessToken := "t" }, ExpireAt := 1000,
        Permissions := [], PermExpireAt := 50 }))
      { Token := { AccessToken := "t" }, ExpireAt := 1000,
        Permissions := [], PermExpireAt := 50 }
      100 600 (Except.ok ["b", "a"])).2.2 (by decide) ["b", "a"] rfl

end Osecure
